import Mathlib

/-!
# Verification of the SPlayer_Android native audio core

Shallow embedding of the player's callback / command state machine
(`src-tauri/src/audio_player.rs`) and of the offline analyzer
(`native/tools/src/analysis.rs`).

Modelling conventions:
* `f32` / `f64` values are modelled as exact rationals (`ℚ`); machine
  integers (`u64`, `usize`) as `ℕ` with Rust's saturating float→int cast
  semantics made explicit.
* Transcendental operations that cannot be represented exactly over `ℚ`
  (powers of ten, `log10`, `sqrt`, the Hamming-windowed FFT magnitudes and
  the MIDI pitch-class fold used by the key detector) are abstracted into a
  `DspOracle` record of uninterpreted functions; every theorem quantifies
  over the oracle, so it holds in particular for the real-valued
  instantiation the Rust code computes.
* Concurrency is modelled by interleaved atomic steps: a supervisor command
  step (`applyCommand`) or one audio-callback invocation
  (`on_audio_ready`); the try-lock on the position update is modelled by an
  explicit `lockOk` flag.
-/

namespace SPlayer

attribute [local semireducible] Rat.mul Rat.add Rat.inv Rat.sub Rat.ofScientific

/-- Rust `f64::max` (no NaNs in scope). Written with `if` so that concrete
instances reduce definitionally; equal to `max` (`rustMax_eq`). -/
def rustMax (a b : ℚ) : ℚ := if a < b then b else a

/-- Rust `f64::min`. Equal to `min` (`rustMin_eq`). -/
def rustMin (a b : ℚ) : ℚ := if b < a then b else a

/-- Rust `f64::abs`. Equal to `|·|` (`rustAbs_eq`). -/
def rustAbs (a : ℚ) : ℚ := if a < 0 then -a else a

/-- Rust `f64::round` / `f32::round`: round half away from zero.
`Rat.floor` is used instead of `⌊·⌋` so that concrete instances reduce;
they agree by `ratFloor_eq`. -/
def rustRound (q : ℚ) : ℤ :=
  if 0 ≤ q then (q + 1/2).floor else -((-q + 1/2).floor)

/-- Rust float → unsigned integer cast (`as u64` / `as usize`):
truncate toward zero, saturating at 0 for negative inputs. -/
def rustFloatToNat (q : ℚ) : ℕ :=
  if q ≤ 0 then 0 else q.floor.toNat

/-- Rust `(x.ceil() as usize)`: ceiling, then saturating cast. -/
def rustCeilToNat (q : ℚ) : ℕ := (-((-q).floor)).toNat

/-- Rust `(x.round() as usize)`: round half away from zero, then saturating cast. -/
def rustRoundToNat (q : ℚ) : ℕ := (rustRound q).toNat

/-- Rust float → signed integer cast (`as i32`): truncate toward zero. -/
def rustTrunc (q : ℚ) : ℤ :=
  if 0 ≤ q then q.floor else -((-q).floor)

/-- Rust `f64::clamp(lo, hi)`. -/
def rustClamp (x lo hi : ℚ) : ℚ :=
  if x < lo then lo else if x > hi then hi else x

theorem ratFloor_eq (q : ℚ) : q.floor = ⌊q⌋ := by
  rw [Rat.floor_def', Rat.floor_def]

theorem rustMax_eq (a b : ℚ) : rustMax a b = max a b := by
  unfold rustMax
  split
  · exact (max_eq_right (le_of_lt (by assumption))).symm
  · exact (max_eq_left (not_lt.mp (by assumption))).symm

theorem rustMin_eq (a b : ℚ) : rustMin a b = min a b := by
  unfold rustMin
  split
  · exact (min_eq_right (le_of_lt (by assumption))).symm
  · exact (min_eq_left (not_lt.mp (by assumption))).symm

theorem rustAbs_eq (a : ℚ) : rustAbs a = |a| := by
  unfold rustAbs
  split
  · exact (abs_of_neg (by assumption)).symm
  · exact (abs_of_nonneg (not_lt.mp (by assumption))).symm

theorem rustRound_intCast (k : ℤ) : rustRound (k : ℚ) = k := by
  unfold rustRound
  by_cases h : (0:ℚ) ≤ (k:ℚ)
  · rw [if_pos h, ratFloor_eq, Int.floor_int_add]
    norm_num
  · rw [if_neg h]
    have : -(k:ℚ) = ((-k : ℤ) : ℚ) := by push_cast; ring
    rw [this, ratFloor_eq, Int.floor_int_add]
    norm_num

theorem rustClamp_mem (x lo hi : ℚ) (h : lo ≤ hi) :
    lo ≤ rustClamp x lo hi ∧ rustClamp x lo hi ≤ hi := by
  unfold rustClamp
  split
  · exact ⟨le_refl _, h⟩
  · split
    · exact ⟨h, le_refl _⟩
    · constructor <;> linarith [not_lt.mp (by assumption : ¬ x < lo)]

/-! ## Player state (audio_player.rs)

`PlaybackStatus`, the supervisor-owned flags, the SPSC ring buffer
(consumer view, front of the list = next sample popped) and the flush flag
are collected into one `PlayerState`. -/

/-- Track metadata published into `PlaybackStatus` (struct `AudioMetadata`). -/
structure AudioMetadata where
  duration_secs : ℚ
  title : Option String
  artist : Option String
  album : Option String
  deriving DecidableEq

/-- Combined shared state of the player: the mutex-guarded `PlaybackStatus`
fields, the supervisor's `playing` / `decode_stop` atomics, the volume cell,
the `StreamContext` flush flag, and the ring-buffer contents seen by the
consumer. -/
structure PlayerState where
  is_playing : Bool
  is_transitioning : Bool
  duration_secs : ℚ
  position_samples : ℕ
  sample_rate : ℕ
  seek_to : Option ℚ
  metadata : Option AudioMetadata
  playing : Bool
  decode_stop : Bool
  volume : ℚ
  flush_requested : Bool
  ring : List ℚ
  deriving DecidableEq

/-- `PlaybackStatus::position_secs`. -/
def position_secs (s : PlayerState) : ℚ :=
  if s.sample_rate = 0 then 0
  else (s.position_samples : ℚ) / (s.sample_rate : ℚ)

/-- Tauri command `get_position`: locks the status and returns `position_secs`. -/
def get_position (s : PlayerState) : ℚ := position_secs s

/-- `ringbuf` consumer `try_pop().unwrap_or(0.0)`. -/
def popSample : List ℚ → ℚ × List ℚ
  | [] => (0, [])
  | x :: rest => (x, rest)

/-- The per-frame loop of `PlayerCallback::on_audio_ready`: pop L and R
(0 on underrun), scale by volume. Returns the output frames and the ring
remainder. -/
def popFrames (vol : ℚ) (ring : List ℚ) : ℕ → List (ℚ × ℚ) × List ℚ
  | 0 => ([], ring)
  | n + 1 =>
    let l := popSample ring
    let r := popSample l.2
    let rest := popFrames vol r.2 n
    ((l.1 * vol, r.1 * vol) :: rest.1, rest.2)

/-- `PlayerCallback::on_audio_ready`: one callback invocation for a buffer
of `numFrames` stereo frames. `lockOk` models the outcome of
`status.try_lock()` for the position update. Returns the new state and the
emitted frames. -/
def on_audio_ready (s : PlayerState) (numFrames : ℕ) (lockOk : Bool) :
    PlayerState × List (ℚ × ℚ) :=
  if s.playing = false then
    (s, List.replicate numFrames (0, 0))
  else if s.flush_requested = true then
    ({ s with ring := [], flush_requested := false }, List.replicate numFrames (0, 0))
  else
    let pf := popFrames s.volume s.ring numFrames
    let samples_read := numFrames
    if 0 < samples_read ∧ lockOk = true then
      ({ s with ring := pf.2, position_samples := s.position_samples + samples_read }, pf.1)
    else
      ({ s with ring := pf.2 }, pf.1)

/-- The command enum `AudioCommand`. -/
inductive Command where
  | play (url : String)
  | preload (url : String)
  | pause
  | resume
  | stop
  | setVolume (v : ℚ)
  | seek (t : ℚ)
  deriving DecidableEq

/-- The supervisor's command dispatch (`AudioState::audio_thread` match arms).
`Play` tears the session down (new ring buffer, new `StreamContext`,
status reset with `position_samples = 0`); `Stop` raises `decode_stop` and
zeroes the position; `Seek` records the target and optimistically sets
`position_samples = (t * sample_rate) as u64`. `Preload` only spawns a
detached preparation thread and leaves this state unchanged. -/
def applyCommand (s : PlayerState) : Command → PlayerState
  | .play _url =>
    { s with playing := false, decode_stop := false,
             ring := [], flush_requested := false,
             is_playing := false, is_transitioning := true,
             duration_secs := 0, position_samples := 0,
             seek_to := none, metadata := none }
  | .preload _url => s
  | .pause => { s with playing := false, is_playing := false }
  | .resume => { s with playing := true, is_playing := true }
  | .stop =>
    { s with playing := false, decode_stop := true,
             is_playing := false, position_samples := 0 }
  | .setVolume v => { s with volume := v }
  | .seek t =>
    { s with seek_to := some t,
             position_samples := rustFloatToNat (t * (s.sample_rate : ℚ)) }

/-- One atomic step of the player: a supervisor command or one audio
callback invocation. -/
inductive StepLabel where
  | command (c : Command)
  | callback (frames : ℕ) (lockOk : Bool)
  deriving DecidableEq

/-- Apply one step to the player state. -/
def playerStep (s : PlayerState) : StepLabel → PlayerState
  | .command c => applyCommand s c
  | .callback n ok => (on_audio_ready s n ok).1

/-! ## Analyzer (analysis.rs)

Real-valued transcendental primitives that have no exact rational
representation are abstracted into a `DspOracle`; everything else
(guards, iteration structure, rational arithmetic) is concrete. -/

/-- Uninterpreted real-valued primitives used by the analyzer:
`pow10 x` models `10f32.powf(x)`; `log10` and `sqrtF` model `f64::log10`
and `sqrt`; `fftNormSq frame i` models `buffer[i].norm_sqr()` after the
Hamming-windowed (α = 0.54, β = 0.46) forward FFT of `frame`;
`pitchClass hz` models `(69.0 + 12.0 * (hz / 440.0).log2()).round() as usize`. -/
structure DspOracle where
  pow10 : ℚ → ℚ
  log10 : ℚ → ℚ
  sqrtF : ℚ → ℚ
  fftNormSq : List ℚ → ℕ → ℚ
  pitchClass : ℚ → ℕ

/-- `ENV_RATE`: the 50 Hz envelope frame rate. -/
def ENV_RATE : ℚ := 50

/-- `SILENCE_THRESH_DB`. -/
def SILENCE_THRESH_DB : ℚ := -48

/-- `ANALYSIS_VERSION`. -/
def ANALYSIS_VERSION : ℤ := 13

/-- `FFT_FRAME_SIZE`. -/
def FFT_FRAME_SIZE : ℕ := 4096

/-- `FFT_STEP`. -/
def FFT_STEP : ℕ := 1024

/-- `BPM_MIN_LAG`. -/
def BPM_MIN_LAG : ℕ := 15

/-- `BPM_MAX_LAG`. -/
def BPM_MAX_LAG : ℕ := 55

/-- Rust `Iterator::rposition`: index (from the front) of the last element
satisfying `p`. -/
def rfindIdx {α : Type} (l : List α) (p : α → Bool) : Option ℕ :=
  match l.reverse.findIdx? p with
  | some j => some (l.length - 1 - j)
  | none => none

/-- `detect_silence`: threshold `10^(db/20)`, fade-in = first envelope
index above threshold, fade-out = last index above threshold (head if the
tail segment is empty, else offset into the tail). -/
def detect_silence (o : DspOracle) (head tail : List ℚ) (duration rate db_thresh : ℚ) :
    ℚ × ℚ :=
  let thresh := o.pow10 (db_thresh / 20)
  let fade_in := ((head.findIdx? (fun x => decide (x > thresh))).map
    (fun (i : ℕ) => (i : ℚ) / rate)).getD 0
  let fade_out :=
    if tail.isEmpty then
      ((rfindIdx head (fun x => decide (x > thresh))).map
        (fun (i : ℕ) => (i : ℚ) / rate)).getD duration
    else
      let tail_dur := (tail.length : ℚ) / rate
      let tail_start := rustMax (duration - tail_dur) 0
      ((rfindIdx tail (fun x => decide (x > thresh))).map
        (fun (i : ℕ) => tail_start + ((i : ℚ) + 1) / rate)).getD duration
  (fade_in, fade_out)

/-- `detect_drop`: best forward(2 s)/backward(4 s) energy ratio over the
head envelope; reported iff the ratio exceeds 1.5. -/
def detect_drop (envelope : List ℚ) (rate : ℚ) : Option ℚ :=
  let window_len := rustFloatToNat (2 * rate)
  if envelope.length < window_len * 2 then none
  else
    let prev_len := rustFloatToNat (rate * 4)
    let best := (List.range' prev_len (envelope.length - window_len - prev_len)).foldl
      (fun (acc : ℚ × ℕ) i =>
        let prev_sum := ((envelope.drop (i - prev_len)).take prev_len).sum
        let next_sum := ((envelope.drop i).take window_len).sum
        let prev_avg := prev_sum / (prev_len : ℚ)
        let next_avg := next_sum / (window_len : ℚ)
        if prev_avg > 0.001 then
          if next_avg / prev_avg > acc.1 then (next_avg / prev_avg, i) else acc
        else acc) (0, 0)
    if best.1 > 1.5 then some ((best.2 : ℚ) / rate) else none

/-- `calculate_outro_energy`: dBFS of the RMS of the last ≤10 s of the
active tail, `-70` floor. -/
def calculate_outro_energy (o : DspOracle) (tail : List ℚ) (rate : ℚ) : Option ℚ :=
  if tail.isEmpty then none
  else
    let local_out := (detect_silence o tail [] ((tail.length : ℚ) / rate) rate SILENCE_THRESH_DB).2
    let end_idx := rustFloatToNat (local_out * rate)
    let start_idx := end_idx - 500
    if end_idx ≤ start_idx then none
    else
      let slice := (tail.drop start_idx).take (end_idx - start_idx)
      let mean_sq := (slice.map (fun x => x * x)).sum / (slice.length : ℚ)
      if mean_sq > 0 then some (20 * o.log10 (o.sqrtF mean_sq)) else some (-70)

/-- `detect_vocals`: `is_vocal(r, e) = r > 0.4 ∧ e > 0.02`; first
satisfying head index after fade-in, last satisfying index of the scan
segment bounded by fade-out, and `vocal_last_in = max(vocal_out − 5, fade_in)`. -/
def detect_vocals (head_env head_ratio tail_env tail_ratio : List ℚ)
    (duration rate fade_in fade_out : ℚ) :
    Option ℚ × Option ℚ × Option ℚ :=
  let is_vocal := fun (r e : ℚ) => decide (r > 0.4 ∧ e > 0.02)
  let vocal_in := (((head_ratio.zip head_env).enum.drop (rustFloatToNat (fade_in * rate))).find?
    (fun p => is_vocal p.2.1 p.2.2)).map (fun p => (p.1 : ℚ) / rate)
  let scan :=
    if tail_env.isEmpty then (head_env, head_ratio, (0 : ℚ))
    else (tail_env, tail_ratio, rustMax (duration - (tail_env.length : ℚ) / rate) 0)
  let base_time := scan.2.2
  let end_limit_idx := rustRoundToNat ((fade_out - base_time) * rate)
  let limit := min end_limit_idx scan.1.length
  let vocal_out := (rfindIdx ((scan.2.1.zip scan.1).take limit)
    (fun p => is_vocal p.1 p.2)).map (fun (i : ℕ) => base_time + (i : ℚ) / rate)
  let vocal_last_in := vocal_out.map (fun vo => rustMax (vo - 5) fade_in)
  (vocal_in, vocal_out, vocal_last_in)

/-- `snap_time`: snap `time` to the nearest `first_beat + k·(60/bpm)·grid`,
returning `first_beat` when the snapped value is negative. -/
def snap_time (time bpm first_beat grid : ℚ) : ℚ :=
  if bpm ≤ 0 then time
  else
    let sec_per_beat := 60 / bpm
    let grid_sec := sec_per_beat * grid
    if grid_sec ≤ 0 then time
    else
      let units := (time - first_beat) / grid_sec
      let snapped := first_beat + (rustRound units : ℚ) * grid_sec
      if snapped < 0 then first_beat else snapped

/-- `calculate_smart_cut_out`. -/
def calculate_smart_cut_out (bpm first_beat conf vocal_out : Option ℚ)
    (_fade_in fade_out duration : ℚ) : Option ℚ :=
  let search_end :=
    match vocal_out with
    | some vo => rustMin (vo + 40) fade_out
    | none => fade_out
  match bpm, first_beat with
  | some b, some fb =>
    if conf.getD 0 > 0.4 then
      let snapped := snap_time search_end b fb 4
      match vocal_out with
      | some vo =>
        if snapped < vo + 2 then some (rustMin (snap_time (vo + 4) b fb 4) duration)
        else some (rustMin snapped duration)
      | none => some (rustMin snapped duration)
    else some search_end
  | _, _ => some search_end

/-- `calculate_smart_cut_in`. -/
def calculate_smart_cut_in (bpm first_beat conf anchor : Option ℚ) (fade_in : ℚ) :
    Option ℚ :=
  let anchorV := anchor.getD fade_in
  match bpm, first_beat with
  | some b, some fb =>
    if conf.getD 0 > 0.4 then
      let sec_bar := 240 / b
      match ([32, 16, 8] : List ℚ).findSome? (fun bars =>
          let t := anchorV - bars * sec_bar
          if t > fade_in then some (snap_time t b fb 4) else none) with
      | some v => some v
      | none => some fade_in
    else some fade_in
  | _, _ => some fade_in

/-- Half-wave rectified flux of an envelope (`env.windows(2)`). -/
def flux (env : List ℚ) : List ℚ :=
  (env.zip env.tail).map (fun w => rustMax (w.2 - w.1) 0)

/-- Non-normalized autocorrelation of `f` at `lag`. -/
def corrAt (f : List ℚ) (lag : ℕ) : ℚ :=
  (List.range (f.length - lag)).foldl (fun s i => s + f.getD i 0 * f.getD (i + lag) 0) 0

/-- The argmax loop of `detect_bpm` over a list of candidate lags
(strict improvement, so the first maximum wins). -/
def bestFold (f : List ℚ) (lags : List ℕ) (init : ℚ × ℕ) : ℚ × ℕ :=
  lags.foldl (fun p lag =>
    let s := corrAt f lag
    if p.1 < s then (s, lag) else p) init

/-- Summed flux over the comb `{phase, phase+lag, phase+2·lag, …}`
(the `while idx < flux.len()` loop, `lag > 0`). -/
def combEnergy (f : List ℚ) (lag phase : ℕ) : ℚ :=
  (List.range ((f.length - phase + lag - 1) / lag)).foldl
    (fun e k => e + f.getD (phase + k * lag) 0) 0

/-- One comparison step of Rust `Iterator::max_by_key`: ties favour the
newer element, so the LAST maximal element wins. -/
def maxByKeyStep (key : ℕ → ℤ) (acc : Option ℕ) (x : ℕ) : Option ℕ :=
  match acc with
  | none => some x
  | some b => if key b ≤ key x then some x else some b

/-- Rust `Iterator::max_by_key` over a list of phases. -/
def maxByKeyLast (l : List ℕ) (key : ℕ → ℤ) : Option ℕ :=
  l.foldl (maxByKeyStep key) none

/-- `detect_bpm`: guards on envelope/flux length, autocorrelation argmax
over lags `[15, 55)`, `BPM = 60/(lag/rate)`, fixed confidence 0.8 and the
comb-phase first beat. -/
def detect_bpm (env _low_env : List ℚ) (rate : ℚ) :
    Option ℚ × Option ℚ × Option ℚ :=
  if env.length < 100 then (none, none, none)
  else
    let f := flux env
    if f.length < 110 then (none, none, none)
    else
      let best := bestFold f (List.range' BPM_MIN_LAG (BPM_MAX_LAG - BPM_MIN_LAG)) (0, 0)
      if best.1 ≤ 0.001 then (none, none, none)
      else
        let bpm := 60 / ((best.2 : ℚ) / rate)
        let first_beat := (maxByKeyLast (List.range best.2)
          (fun p => rustTrunc (combEnergy f best.2 p * 1000))).map
          (fun (p : ℕ) => (p : ℚ) / rate)
        (some bpm, some 0.8, first_beat)

/-- Rust slice `chunks(n)`: successive sub-lists of length `n` (last one
possibly shorter), i.e. the `⌈len/n⌉` windows `l[i·n .. i·n+n]`; empty for
`n = 0` (Rust panics there; `chunks(4096)` never hits it). -/
def chunksList {α : Type} (n : ℕ) (l : List α) : List (List α) :=
  if n = 0 then []
  else (List.range ((l.length + n - 1) / n)).map (fun i => (l.drop (i * n)).take n)

/-- Rust `Iterator::step_by(n)`: keep the elements at indices 0, n, 2n, …. -/
def everyNth {α : Type} (l : List α) (n : ℕ) : List α :=
  (l.enum.filter (fun p => decide (p.1 % n = 0))).map Prod.snd

/-- The frames actually iterated by `detect_key`'s
`pcm.chunks(FFT_FRAME_SIZE).step_by(FFT_STEP)` loop, including the
`break` on the first chunk shorter than a full frame. -/
def keyChunks (pcm : List ℚ) : List (List ℚ) :=
  (everyNth (chunksList FFT_FRAME_SIZE pcm) FFT_STEP).takeWhile
    (fun c => decide (FFT_FRAME_SIZE ≤ c.length))

/-- The chroma accumulation of `detect_key`: for each frame and each FFT
bin `i ∈ [1, 2048)` whose frequency lies in `[80, 5000]` Hz, add the bin's
squared magnitude into the pitch-class slot. -/
def chromaOfFrames (o : DspOracle) (frames : List (List ℚ)) (sr : ℕ) : List ℚ :=
  frames.foldl (fun ch frame =>
    (List.range' 1 (FFT_FRAME_SIZE / 2 - 1)).foldl (fun ch2 (i : ℕ) =>
      let hz := (i : ℚ) * (sr : ℚ) / (FFT_FRAME_SIZE : ℚ)
      if hz < 80 ∨ hz > 5000 then ch2
      else
        let pc := o.pitchClass hz % 12
        ch2.set pc (ch2.getD pc 0 + o.fftNormSq frame i)) ch)
    (List.replicate 12 0)

/-- Krumhansl-Schmuckler major profile. -/
def KS_MAJOR : List ℚ := [6.35, 2.23, 3.48, 2.33, 4.38, 4.09, 2.52, 5.19, 2.39, 3.66, 2.29, 2.88]

/-- Krumhansl-Schmuckler minor profile. -/
def KS_MINOR : List ℚ := [6.33, 2.68, 3.52, 5.38, 2.60, 3.53, 2.54, 4.75, 3.98, 2.69, 3.34, 3.17]

/-- `detect_key`: length guard, chroma over the iterated frames,
L2-normalization, correlation against the rotated K-S profiles, argmax
over `(root, mode)` with majors checked before minors per root. -/
def detect_key (o : DspOracle) (pcm : List ℚ) (sr : ℕ) :
    Option ℤ × Option ℤ × Option ℚ :=
  if pcm.length < FFT_FRAME_SIZE then (none, none, none)
  else
    let chroma0 := chromaOfFrames o (keyChunks pcm) sr
    let sum_sq := (chroma0.map (fun x => x * x)).sum
    if sum_sq = 0 then (none, none, none)
    else
      let norm := o.sqrtF sum_sq
      let chroma := chroma0.map (fun x => x / norm)
      let best := (List.range 12).foldl (fun (acc : ℚ × ℕ × ℕ) root =>
        let sums := (List.range 12).foldl (fun (sp : ℚ × ℚ) i =>
          let idx := (i + 12 - root) % 12
          (sp.1 + chroma.getD i 0 * KS_MAJOR.getD idx 0,
           sp.2 + chroma.getD i 0 * KS_MINOR.getD idx 0)) (0, 0)
        let acc1 := if acc.1 < sums.1 then (sums.1, root, 0) else acc
        if acc1.1 < sums.2 then (sums.2, root, 1) else acc1) (-1, 0, 0)
      if best.1 > 0 then ((some (best.2.1 : ℤ), some (best.2.2 : ℤ), some 0.8))
      else (none, none, none)

/-- Camelot numbers for major roots C..B. -/
def CAMELOT_MAJOR : List ℕ := [12, 7, 2, 9, 4, 11, 6, 1, 8, 3, 10, 5]

/-- Camelot numbers for minor roots C..B. -/
def CAMELOT_MINOR : List ℕ := [9, 4, 11, 6, 1, 8, 3, 10, 5, 12, 7, 2]

/-- Rust `i32 as usize` (sign-extending reinterpretation, 64-bit target). -/
def rustI32ToUsize (r : ℤ) : ℕ := (r.emod (2 ^ 64)).toNat

/-- `get_camelot_key`. -/
def get_camelot_key (root mode : ℤ) : Option String :=
  let map := if mode = 0 then CAMELOT_MAJOR else CAMELOT_MINOR
  (map.get? (rustI32ToUsize root)).map (fun num =>
    toString num ++ (if mode = 0 then "B" else "A"))

/-- The `parse` closure of `is_camelot_compatible`: last character is the
mode letter, the preceding characters parse as the number. -/
def parseCamelot (k : String) : Option (ℤ × Char) :=
  match k.toList.getLast? with
  | none => none
  | some mode =>
    match (String.mk k.toList.dropLast).toInt? with
    | some num => some (num, mode)
    | none => none

/-- `is_camelot_compatible`. -/
def is_camelot_compatible (key_a key_b : Option String) : Bool :=
  match key_a, key_b with
  | some a, some b =>
    if a = b then true
    else
      match parseCamelot a, parseCamelot b with
      | some nmA, some nmB =>
        let diff := (nmA.1 - nmB.1).natAbs
        decide ((diff = 1 ∨ diff = 11) ∧ nmA.2 = nmB.2)
      | _, _ => false
  | _, _ => false

/-- `fill_energy_profile`: write `max(profile[idx], val)` for each envelope
sample mapped to a 10 Hz bin, skipping out-of-range bins. -/
def fill_energy_profile (profile envelope : List ℚ) (start_time env_rate profile_rate : ℚ) :
    List ℚ :=
  envelope.enum.foldl (fun prof p =>
    let time := start_time + (p.1 : ℚ) / env_rate
    let idx := rustFloatToNat (time * profile_rate)
    if idx < prof.length then prof.set idx (rustMax (prof.getD idx 0) p.2) else prof) profile

/-- The accumulator state of the BS.1770 `LoudnessMeter` at finalization
(the filtered sum of squares and the processed frame count). -/
structure LoudnessState where
  sum_sq : ℚ
  count : ℕ
  deriving DecidableEq

/-- `LoudnessMeter::get_lufs`. -/
def get_lufs (o : DspOracle) (m : LoudnessState) : ℚ :=
  if m.count = 0 then -70
  else
    let mean_sq := m.sum_sq / (m.count : ℚ)
    if mean_sq ≤ 0 then -70 else -0.691 + 10 * o.log10 mean_sq

/-- `AnalysisSegment`: the three parallel 50 Hz envelopes. -/
structure AnalysisSegment where
  envelope : List ℚ
  low_envelope : List ℚ
  vocal_ratio : List ℚ
  deriving DecidableEq

/-- The `TrackAnalyzer` state as it stands when `finalize_analysis` runs
(after `process_segment` has filled the segments, the retained head PCM,
the duration and the loudness accumulator). -/
structure AnalyzerState where
  head : AnalysisSegment
  tail : AnalysisSegment
  head_pcm : List ℚ
  duration : ℚ
  sample_rate : ℕ
  include_tail : Bool
  max_analyze_time : ℚ
  loudness : LoudnessState
  deriving DecidableEq

/-- The frozen `AudioAnalysis` output record. -/
structure AudioAnalysis where
  duration : ℚ
  bpm : Option ℚ
  bpm_confidence : Option ℚ
  fade_in_pos : ℚ
  fade_out_pos : ℚ
  first_beat_pos : Option ℚ
  loudness : Option ℚ
  drop_pos : Option ℚ
  version : ℤ
  analyze_window : ℚ
  cut_in_pos : Option ℚ
  cut_out_pos : Option ℚ
  mix_center_pos : ℚ
  mix_start_pos : ℚ
  mix_end_pos : ℚ
  energy_profile : List ℚ
  vocal_in_pos : Option ℚ
  vocal_out_pos : Option ℚ
  vocal_last_in_pos : Option ℚ
  outro_energy_level : Option ℚ
  key_root : Option ℤ
  key_mode : Option ℤ
  key_confidence : Option ℚ
  camelot_key : Option String
  deriving DecidableEq

/-- `let mix_center = smart_cut_out.unwrap_or((duration - 10.0).max(0.0)).min(duration)`. -/
def mix_center_of (smart_cut_out : Option ℚ) (duration : ℚ) : ℚ :=
  rustMin (smart_cut_out.getD (rustMax (duration - 10) 0)) duration

/-- `let mix_duration = if let Some(b) = bpm { (240/b*8).clamp(15, 30) } else { 20 }`. -/
def mix_duration_of : Option ℚ → ℚ
  | some b => rustClamp (240 / b * 8) 15 30
  | none => 20

/-- `let mix_start = (mix_center - mix_duration/2).max(0.0)`. -/
def mix_start_of (c md : ℚ) : ℚ := rustMax (c - md / 2) 0

/-- `let mix_end = (mix_center + mix_duration/2).min(duration)`. -/
def mix_end_of (c md d : ℚ) : ℚ := rustMin (c + md / 2) d

/-- `let profile_len = ((duration * 10.0).ceil() as usize).max(1)`. -/
def energy_profile_len (duration : ℚ) : ℕ :=
  max (rustCeilToNat (duration * 10)) 1

/-- `TrackAnalyzer::finalize_analysis`, as the record it wraps in `Some`. -/
def finalize_record (o : DspOracle) (st : AnalyzerState) : AudioAnalysis :=
  let fades := detect_silence o st.head.envelope st.tail.envelope st.duration ENV_RATE SILENCE_THRESH_DB
  let fade_in := fades.1
  let fade_out := fades.2
  let bpmT := detect_bpm st.head.envelope st.head.low_envelope ENV_RATE
  let keyT := detect_key o st.head_pcm st.sample_rate
  let drop_pos := detect_drop st.head.envelope ENV_RATE
  let voc := detect_vocals st.head.envelope st.head.vocal_ratio st.tail.envelope
    st.tail.vocal_ratio st.duration ENV_RATE fade_in fade_out
  let smart_cut_out := calculate_smart_cut_out bpmT.1 bpmT.2.2 bpmT.2.1 voc.2.1
    fade_in fade_out st.duration
  let smart_cut_in := calculate_smart_cut_in bpmT.1 bpmT.2.2 bpmT.2.1
    (voc.1.or drop_pos) fade_in
  let mix_center := mix_center_of smart_cut_out st.duration
  let mix_duration := mix_duration_of bpmT.1
  let ep0 := List.replicate (energy_profile_len st.duration) (0 : ℚ)
  let ep1 := fill_energy_profile ep0 st.head.envelope 0 ENV_RATE 10
  let ep :=
    if st.tail.envelope.isEmpty then ep1
    else fill_energy_profile ep1 st.tail.envelope
      (rustMax (st.duration - (st.tail.envelope.length : ℚ) / ENV_RATE) 0) ENV_RATE 10
  { duration := st.duration
    bpm := bpmT.1
    bpm_confidence := bpmT.2.1
    fade_in_pos := fade_in
    fade_out_pos := if st.include_tail then fade_out else st.duration
    first_beat_pos := bpmT.2.2
    loudness := some (get_lufs o st.loudness)
    drop_pos := drop_pos
    version := ANALYSIS_VERSION
    analyze_window := st.max_analyze_time
    cut_in_pos := smart_cut_in
    cut_out_pos := if st.include_tail then smart_cut_out else none
    mix_center_pos := mix_center
    mix_start_pos := mix_start_of mix_center mix_duration
    mix_end_pos := mix_end_of mix_center mix_duration st.duration
    energy_profile := ep
    vocal_in_pos := voc.1
    vocal_out_pos := if st.include_tail then voc.2.1 else none
    vocal_last_in_pos := if st.include_tail then voc.2.2 else none
    outro_energy_level := calculate_outro_energy o st.tail.envelope ENV_RATE
    key_root := keyT.1
    key_mode := keyT.2.1
    key_confidence := keyT.2.2
    camelot_key :=
      match keyT.1, keyT.2.1 with
      | some r, some m => get_camelot_key r m
      | _, _ => none }

/-- `finalize_analysis` proper (the source wraps the record in `Some`). -/
def finalize_analysis (o : DspOracle) (st : AnalyzerState) : Option AudioAnalysis :=
  some (finalize_record o st)

/-! ## Transition planner -/

/-- `TransitionProposal`. -/
structure TransitionProposal where
  duration : ℚ
  current_track_mix_out : ℚ
  next_track_mix_in : ℚ
  mix_type : String
  filter_strategy : String
  compatibility_score : ℚ
  key_compatible : Bool
  bpm_compatible : Bool
  deriving DecidableEq

/-- `MixStrategy`. -/
structure MixStrategy where
  name : String
  filter : String
  bars : ℚ
  req_key : Bool
  req_bpm : Bool

/-- `STRATEGIES` in declared order (constructor argument order is
`(name, filter, bars, req_bpm, req_key)`). -/
def STRATEGIES : List MixStrategy :=
  [ { name := "Harmonic Deep Blend", filter := "Eq Swap (Bass/Mid)", bars := 32, req_bpm := true, req_key := true },
    { name := "Long Filter Blend", filter := "Bass Swap / LPF", bars := 32, req_bpm := true, req_key := false },
    { name := "Standard Blend", filter := "Eq Mixing", bars := 16, req_bpm := true, req_key := true },
    { name := "Filter Blend", filter := "Bass Cut Out", bars := 16, req_bpm := true, req_key := false },
    { name := "Short Blend", filter := "Wash Out / Echo", bars := 8, req_bpm := false, req_key := false },
    { name := "Quick Blend", filter := "Quick Fade", bars := 4, req_bpm := true, req_key := false } ]

/-- The `for s in STRATEGIES` loop of `suggest_transition`: first strategy
whose requirements hold, whose duration fits the next track's intro, and
for which the current track has room. -/
def tryStrategies (bpmC keyC : Bool) (nextIntroLen curOut nextIn mixCenter secPerBar : ℚ) :
    List MixStrategy → Option TransitionProposal
  | [] => none
  | s :: rest =>
    if s.req_bpm && !bpmC then
      tryStrategies bpmC keyC nextIntroLen curOut nextIn mixCenter secPerBar rest
    else if s.req_key && !keyC then
      tryStrategies bpmC keyC nextIntroLen curOut nextIn mixCenter secPerBar rest
    else
      let dur := s.bars * secPerBar
      if nextIntroLen < dur then
        tryStrategies bpmC keyC nextIntroLen curOut nextIn mixCenter secPerBar rest
      else
        let start := curOut - dur
        if start < mixCenter - 30 then
          tryStrategies bpmC keyC nextIntroLen curOut nextIn mixCenter secPerBar rest
        else
          some { duration := dur, current_track_mix_out := start,
                 next_track_mix_in := nextIn,
                 mix_type := s.name ++ " (" ++ toString s.bars ++ " Bars)",
                 filter_strategy := s.filter, compatibility_score := 0.9,
                 key_compatible := keyC, bpm_compatible := bpmC }

/-- The pure core of `suggest_transition` after both analyses succeeded:
128 BPM substitution, compatibility checks, the strategy table, and the
Aggressive Bass Swap / Echo Out fallbacks. -/
def suggestTransitionCore (cur next : AudioAnalysis) : TransitionProposal :=
  let bpm_a := cur.bpm.getD 128
  let bpm_b := next.bpm.getD 128
  let bpmC := decide (rustAbs (bpm_a - bpm_b) / bpm_a < 0.06)
  let keyC := is_camelot_compatible cur.camelot_key next.camelot_key
  let cur_out := cur.cut_out_pos.getD cur.fade_out_pos
  let next_in := next.first_beat_pos.getD 0
  let next_intro_len := next.vocal_in_pos.getD 30 - next_in
  let sec_per_bar := 240 / bpm_a
  match tryStrategies bpmC keyC next_intro_len cur_out next_in cur.mix_center_pos sec_per_bar STRATEGIES with
  | some p => p
  | none =>
    let dur := 16 * sec_per_bar
    if bpmC && decide (cur.duration - cur_out > dur) then
      { duration := dur, current_track_mix_out := cur_out - dur,
        next_track_mix_in := next_in, mix_type := "Aggressive Bass Swap",
        filter_strategy := "Bass Swap", compatibility_score := 0.7,
        key_compatible := keyC, bpm_compatible := bpmC }
    else
      { duration := sec_per_bar * 4, current_track_mix_out := cur_out,
        next_track_mix_in := next_in, mix_type := "Echo Out",
        filter_strategy := "Echo Freeze", compatibility_score := 0.5,
        key_compatible := keyC, bpm_compatible := bpmC }

/-- `suggest_transition`: the two leading `analyze()?` calls perform
decoding I/O, so their `Option<AudioAnalysis>` results are taken as
inputs; everything after them is `suggestTransitionCore`. -/
def suggest_transition (cur next : Option AudioAnalysis) : Option TransitionProposal :=
  match cur with
  | none => none
  | some c =>
    match next with
    | none => none
    | some n => some (suggestTransitionCore c n)

/-- Modelled from the spec: the frame starts demanded by the sentence
"Frame size 4096, hop 1024" — the k-th analyzed frame starts at sample
offset 1024·k, for every k such that a full 4096-sample frame fits. -/
def spec_hop_frame_starts (len : ℕ) : List ℕ :=
  if len < 4096 then []
  else (List.range ((len - 4096) / 1024 + 1)).map (fun k => 1024 * k)

/-! ## Concrete instances used as test vectors -/

/-- Trivial oracle instantiation (all abstracted reals set to 0). -/
def oracle0 : DspOracle :=
  { pow10 := fun _ => 0, log10 := fun _ => 0, sqrtF := fun _ => 0,
    fftNormSq := fun _ _ => 0, pitchClass := fun _ => 0 }

/-- Oracle whose `pow10` returns `1/250 = 0.004`, agreeing with the true
silence threshold `10^(-48/20) ≈ 0.00398` on which side of it the envelope
values 0 and 1 fall. -/
def oracle1 : DspOracle :=
  { pow10 := fun _ => 1/250, log10 := fun _ => 0, sqrtF := fun _ => 0,
    fftNormSq := fun _ _ => 0, pitchClass := fun _ => 0 }

/-- Playing, no flush, empty ring buffer: a full underrun. -/
def sUnderrun : PlayerState :=
  { is_playing := true, is_transitioning := false, duration_secs := 180,
    position_samples := 7, sample_rate := 44100, seek_to := none,
    metadata := none, playing := true, decode_stop := false, volume := 1,
    flush_requested := false, ring := [] }

/-- Playing, no flush, one stereo frame buffered. -/
def sOneFrame : PlayerState :=
  { is_playing := true, is_transitioning := false, duration_secs := 180,
    position_samples := 400, sample_rate := 48000, seek_to := none,
    metadata := none, playing := true, decode_stop := false, volume := 1/2,
    flush_requested := false, ring := [3/10, 5/10] }

/-- Mid-playback state with a nonzero position, used for command steps. -/
def sMidPlay : PlayerState :=
  { is_playing := true, is_transitioning := false, duration_secs := 240,
    position_samples := 100, sample_rate := 44100, seek_to := none,
    metadata := none, playing := true, decode_stop := false, volume := 1,
    flush_requested := false, ring := [1/2, 1/2] }

/-- Another mid-playback state, used to exercise each command arm. -/
def sCmdProbe : PlayerState :=
  { is_playing := true, is_transitioning := false, duration_secs := 240,
    position_samples := 4410, sample_rate := 44100, seek_to := none,
    metadata := none, playing := true, decode_stop := false, volume := 1,
    flush_requested := false, ring := [1/2] }

/-- Paused state with a pending flush request and buffered samples. -/
def sPausedFlush : PlayerState :=
  { is_playing := false, is_transitioning := false, duration_secs := 200,
    position_samples := 42, sample_rate := 44100, seek_to := some 30,
    metadata := none, playing := false, decode_stop := false, volume := 1,
    flush_requested := true, ring := [1/4, 1/3, 1/5, 1/6] }

/-- State before the hardware stream published a sample rate. -/
def sZeroRate : PlayerState :=
  { is_playing := false, is_transitioning := true, duration_secs := 0,
    position_samples := 5, sample_rate := 0, seek_to := none,
    metadata := none, playing := false, decode_stop := false, volume := 1,
    flush_requested := false, ring := [] }

/-- A 111-sample envelope with an impulse every 15 samples: a perfect
200 BPM click track at the 50 Hz envelope rate. -/
def env111 : List ℚ :=
  (List.range 111).map (fun n => if n % 15 = 0 then 1 else 0)

/-- A retained mono head PCM of 5120 samples. -/
def pcm5120 : List ℚ := List.replicate 5120 0

/-- Analyzer state of a 3-second constantly-loud head-only run: 150
envelope frames of value 1, no tail, duration 3 s. (The mix-window fields
of `finalize_record` do not read `head_pcm`, which is elided.) -/
def stShortTrack : AnalyzerState :=
  { head := { envelope := List.replicate 150 1, low_envelope := List.replicate 150 0,
              vocal_ratio := List.replicate 150 0 },
    tail := { envelope := [], low_envelope := [], vocal_ratio := [] },
    head_pcm := [], duration := 3, sample_rate := 44100, include_tail := false,
    max_analyze_time := 60, loudness := { sum_sq := 132300, count := 132300 } }

/-- Analyzer state after a probe-able input that yields no decodable
packets: all segments empty, `duration` still 0. -/
def stEmptyTrack : AnalyzerState :=
  { head := { envelope := [], low_envelope := [], vocal_ratio := [] },
    tail := { envelope := [], low_envelope := [], vocal_ratio := [] },
    head_pcm := [], duration := 0, sample_rate := 44100, include_tail := true,
    max_analyze_time := 60, loudness := { sum_sq := 0, count := 0 } }

/-- Small analyzer state with a positive duration (C6 witness input). -/
def stTinyA : AnalyzerState :=
  { head := { envelope := [1, 1], low_envelope := [0, 0], vocal_ratio := [0, 0] },
    tail := { envelope := [], low_envelope := [], vocal_ratio := [] },
    head_pcm := [], duration := 1, sample_rate := 44100, include_tail := false,
    max_analyze_time := 60, loudness := { sum_sq := 0, count := 0 } }

/-- Small analyzer state with a positive duration (C7 witness input). -/
def stTinyB : AnalyzerState :=
  { head := { envelope := [1], low_envelope := [0], vocal_ratio := [0] },
    tail := { envelope := [], low_envelope := [], vocal_ratio := [] },
    head_pcm := [], duration := 2, sample_rate := 44100, include_tail := true,
    max_analyze_time := 60, loudness := { sum_sq := 0, count := 0 } }

/-! ## Claims about the player -/

/-- C1 (counterexample): with `playing` set, no flush pending and an empty
ring buffer (a full underrun), the callback's output for the whole
4-frame buffer is silence, yet `position_samples` advances from 7 to 11 —
refuting "whenever the callback's output for the whole buffer is silence,
`position_samples` is left unchanged". -/
theorem c1_counterexample :
    (on_audio_ready sUnderrun 4 true).2 = List.replicate 4 ((0 : ℚ), (0 : ℚ)) ∧
    sUnderrun.position_samples = 7 ∧
    (on_audio_ready sUnderrun 4 true).1.position_samples = 11 := by
  decide

/-- C1 (amended): `position_samples` is unchanged by a callback invocation
while paused, while a flush is pending, or when the status try-lock fails;
in every other invocation it advances by exactly the number of frames in
the buffer — also when the ring buffer underruns and zeros are substituted
for the missing samples. -/
theorem c1_theorem (s : PlayerState) (n : ℕ) (ok : Bool) :
    (s.playing = false → (on_audio_ready s n ok).1.position_samples = s.position_samples) ∧
    (s.flush_requested = true → (on_audio_ready s n ok).1.position_samples = s.position_samples) ∧
    (ok = false → (on_audio_ready s n ok).1.position_samples = s.position_samples) ∧
    (s.playing = true → s.flush_requested = false → ok = true →
      (on_audio_ready s n ok).1.position_samples = s.position_samples + n) := by
  unfold on_audio_ready
  refine ⟨?_, ?_, ?_, ?_⟩
  · intro h; simp [h]
  · intro h
    by_cases hp : s.playing = false
    · simp [hp]
    · simp [hp, h]
  · intro h
    by_cases hp : s.playing = false
    · simp [hp]
    · by_cases hf : s.flush_requested = true
      · simp [hp, hf]
      · simp [hp, hf, h]
  · intro hp hf hok
    rcases Nat.eq_zero_or_pos n with hn | hn
    · subst hn; simp [hp, hf, hok]
    · simp [hp, hf, hok, hn]

/-- C1 (witness): on a playing, non-flushing state with one buffered frame
and a successful try-lock, the callback advances the position by the frame
count. -/
theorem c1_witness :
    sOneFrame.playing = true ∧ sOneFrame.flush_requested = false ∧
    (on_audio_ready sOneFrame 2 true).1.position_samples = sOneFrame.position_samples + 2 :=
  ⟨rfl, rfl, (c1_theorem sOneFrame 2 true).2.2.2 rfl rfl rfl⟩

/-- C2 (counterexample): handling `Stop` sets `position_samples` to 0,
strictly decreasing it from 100 — refuting "no other command decreases it"
(`Stop` is neither `Play` nor `Seek`). -/
theorem c2_counterexample :
    (playerStep sMidPlay (.command .stop)).position_samples < sMidPlay.position_samples := by
  decide

/-- C2 (amended): across supervisor command steps and callback steps,
`position_samples` is monotonically non-decreasing, except that `Play`
resets it to 0, `Stop` resets it to 0, and `Seek t` sets it to
`(t · sample_rate) as u64`. -/
theorem c2_theorem (s : PlayerState) (l : StepLabel) :
    ((∀ url, l ≠ .command (.play url)) → l ≠ .command .stop →
      (∀ t, l ≠ .command (.seek t)) →
      s.position_samples ≤ (playerStep s l).position_samples) ∧
    (∀ url, l = .command (.play url) → (playerStep s l).position_samples = 0) ∧
    (l = .command .stop → (playerStep s l).position_samples = 0) ∧
    (∀ t, l = .command (.seek t) →
      (playerStep s l).position_samples = rustFloatToNat (t * (s.sample_rate : ℚ))) := by
  cases l with
  | command c =>
    cases c <;>
      simp_all [playerStep, applyCommand]
  | callback n ok =>
    refine ⟨?_, by simp, by simp, by simp⟩
    intro _ _ _
    show s.position_samples ≤ (on_audio_ready s n ok).1.position_samples
    unfold on_audio_ready
    by_cases hp : s.playing = false
    · simp [hp]
    · by_cases hf : s.flush_requested = true
      · simp [hp, hf]
      · by_cases hc : 0 < n ∧ ok = true
        · simp [hp, hf, hc, Nat.le_add_right]
        · simp [hp, hf, hc]

/-- C2 (witness): on a concrete mid-playback state, `Pause` does not
decrease the position, `Play` and `Stop` reset it to 0, and `Seek 2` sets
it to the cast of `2 · sample_rate`. -/
theorem c2_witness :
    sCmdProbe.position_samples ≤ (playerStep sCmdProbe (.command .pause)).position_samples ∧
    (playerStep sCmdProbe (.command (.play "song.flac"))).position_samples = 0 ∧
    (playerStep sCmdProbe (.command .stop)).position_samples = 0 ∧
    (playerStep sCmdProbe (.command (.seek 2))).position_samples =
      rustFloatToNat (2 * (sCmdProbe.sample_rate : ℚ)) :=
  ⟨(c2_theorem sCmdProbe _).1
      (fun _ h => by cases h) (fun h => by cases h) (fun _ h => by cases h),
   (c2_theorem sCmdProbe _).2.1 "song.flac" rfl,
   (c2_theorem sCmdProbe _).2.2.1 rfl,
   (c2_theorem sCmdProbe _).2.2.2 2 rfl⟩

/-- C9: while the `playing` flag is false the callback writes only zeros
and leaves the ring buffer, `position_samples` and the flush flag
untouched — in particular a pending flush raised by the decoder survives
the invocation. -/
theorem c9_theorem (s : PlayerState) (n : ℕ) (ok : Bool) (h : s.playing = false) :
    (on_audio_ready s n ok).1.ring = s.ring ∧
    (on_audio_ready s n ok).1.position_samples = s.position_samples ∧
    (on_audio_ready s n ok).1.flush_requested = s.flush_requested ∧
    (on_audio_ready s n ok).2 = List.replicate n (0, 0) := by
  unfold on_audio_ready
  simp [h]

/-- C9 (witness): a paused state with a pending flush and four buffered
samples is untouched by a 3-frame callback, which emits pure silence. -/
theorem c9_witness :
    sPausedFlush.playing = false ∧
    (on_audio_ready sPausedFlush 3 true).1.ring = sPausedFlush.ring ∧
    (on_audio_ready sPausedFlush 3 true).1.position_samples = sPausedFlush.position_samples ∧
    (on_audio_ready sPausedFlush 3 true).1.flush_requested = sPausedFlush.flush_requested ∧
    (on_audio_ready sPausedFlush 3 true).2 = List.replicate 3 (0, 0) :=
  ⟨rfl, (c9_theorem sPausedFlush 3 true rfl).1, (c9_theorem sPausedFlush 3 true rfl).2.1,
   (c9_theorem sPausedFlush 3 true rfl).2.2.1, (c9_theorem sPausedFlush 3 true rfl).2.2.2⟩

/-- C10: `get_position` (via `position_secs`) is total and returns 0
whenever `sample_rate` is 0, so the division by `sample_rate` is guarded. -/
theorem c10_theorem (s : PlayerState) (h : s.sample_rate = 0) :
    get_position s = 0 := by
  unfold get_position position_secs
  simp [h]

/-- C10 (witness): the initial zero-rate state reports position 0. -/
theorem c10_witness : sZeroRate.sample_rate = 0 ∧ get_position sZeroRate = 0 :=
  ⟨rfl, c10_theorem sZeroRate rfl⟩

/-! ## Claims about the analyzer -/

/-- C8: `snap_time` is idempotent for positive `bpm` and positive `grid`
(exact rational model of the `f64` arithmetic). -/
theorem c8_theorem (t bpm fb grid : ℚ) (hb : 0 < bpm) (hg : 0 < grid) :
    snap_time (snap_time t bpm fb grid) bpm fb grid = snap_time t bpm fb grid := by
  have hbn : ¬ bpm ≤ 0 := not_le.mpr hb
  have hgs : 0 < 60 / bpm * grid := mul_pos (div_pos (by norm_num) hb) hg
  have hgsn : ¬ 60 / bpm * grid ≤ 0 := not_le.mpr hgs
  have hgsne : 60 / bpm * grid ≠ 0 := ne_of_gt hgs
  have hr0 : rustRound (0 : ℚ) = 0 := by
    have h := rustRound_intCast 0
    simpa using h
  simp only [snap_time, if_neg hbn, if_neg hgsn]
  by_cases hneg : fb + (rustRound ((t - fb) / (60 / bpm * grid)) : ℚ) * (60 / bpm * grid) < 0
  · rw [if_pos hneg, sub_self, zero_div, hr0]
    simp
  · rw [if_neg hneg]
    have harg : (fb + (rustRound ((t - fb) / (60 / bpm * grid)) : ℚ) * (60 / bpm * grid) - fb) /
        (60 / bpm * grid) = (rustRound ((t - fb) / (60 / bpm * grid)) : ℚ) := by
      rw [add_sub_cancel_left]
      exact mul_div_cancel_right₀ _ hgsne
    rw [harg, rustRound_intCast, if_neg hneg]

/-- C8 (witness): idempotence at `t = 7`, 120 BPM, first beat 1, 4-beat grid. -/
theorem c8_witness :
    (0 : ℚ) < 120 ∧ (0 : ℚ) < 4 ∧
    snap_time (snap_time 7 120 1 4) 120 1 4 = snap_time 7 120 1 4 :=
  ⟨by norm_num, by norm_num, c8_theorem 7 120 1 4 (by norm_num) (by norm_num)⟩

/-- C5: `suggest_transition` returns `None` iff analyzing one of the two
tracks returned `None`; when both analyses are present it always returns a
proposal (the strategy table, Aggressive Bass Swap, or the unconditional
Echo Out fallback, with 128 substituted for a missing BPM inside
`suggestTransitionCore`). -/
theorem c5_theorem (cur next : Option AudioAnalysis) :
    suggest_transition cur next = none ↔ cur = none ∨ next = none := by
  cases cur <;> cases next <;> simp [suggest_transition]

/-- C3: on a 5120-sample head PCM the key detector's
`chunks(4096).step_by(1024)` loop analyzes exactly one frame — the 4096
samples at offset 0 — whereas the specified hop-1024 framing demands the
two frames at offsets 0 and 1024 (`spec_hop_frame_starts`). `step_by`
strides over whole 4096-sample chunks, so `FFT_STEP = 1024` skips
1024 chunks (4 Mi samples) at a time instead of hopping 1024 samples. -/
theorem c3_theorem :
    keyChunks pcm5120 = [pcm5120.take 4096] ∧
    spec_hop_frame_starts 5120 = [0, 1024] := by
  constructor
  · have hlen : pcm5120.length = 5120 := by
      simp only [pcm5120, List.length_replicate]
    have hchunks : chunksList FFT_FRAME_SIZE pcm5120 =
        [(pcm5120.drop (0 * 4096)).take 4096, (pcm5120.drop (1 * 4096)).take 4096] := by
      unfold chunksList FFT_FRAME_SIZE
      rw [hlen]
      norm_num [List.range_succ]
    have hlen0 : ((pcm5120.drop (0 * 4096)).take 4096).length = 4096 := by
      simp only [List.length_take, List.length_drop, hlen]
      norm_num
    unfold keyChunks
    rw [hchunks]
    unfold everyNth FFT_STEP FFT_FRAME_SIZE
    simp only [List.enum, List.enumFrom, List.filter, List.map]
    norm_num
    rw [hlen]
    norm_num
  · decide

/-! ### Lemmas about `detect_bpm` -/

theorem getD_nonneg (l : List ℚ) (i : ℕ) (h : ∀ x ∈ l, 0 ≤ x) : 0 ≤ l.getD i 0 := by
  induction l generalizing i with
  | nil => simp
  | cons x xs ih =>
    cases i with
    | zero => simpa using h x (List.mem_cons_self x xs)
    | succ j =>
      simp only [List.getD_cons_succ]
      exact ih j (fun y hy => h y (List.mem_cons_of_mem x hy))

theorem flux_mem_nonneg (env : List ℚ) : ∀ x ∈ flux env, 0 ≤ x := by
  intro x hx
  unfold flux at hx
  obtain ⟨w, _, rfl⟩ := List.mem_map.mp hx
  rw [rustMax_eq]
  exact le_max_right _ _

theorem foldl_add_nonneg (g : ℕ → ℚ) (hg : ∀ i, 0 ≤ g i) :
    ∀ (l : List ℕ) (init : ℚ), 0 ≤ init → 0 ≤ l.foldl (fun s i => s + g i) init
  | [], _, h => h
  | i :: l, _init, h => foldl_add_nonneg g hg l _ (add_nonneg h (hg i))

theorem corrAt_nonneg (env : List ℚ) (lag : ℕ) : 0 ≤ corrAt (flux env) lag := by
  unfold corrAt
  exact foldl_add_nonneg
    (fun i => (flux env).getD i 0 * (flux env).getD (i + lag) 0)
    (fun i => mul_nonneg (getD_nonneg _ _ (flux_mem_nonneg env))
      (getD_nonneg _ _ (flux_mem_nonneg env)))
    _ 0 le_rfl

theorem bestFold_spec (f : List ℚ) (lags : List ℕ) :
    ∀ init : ℚ × ℕ,
      init.1 ≤ (bestFold f lags init).1 ∧
      (∀ l ∈ lags, corrAt f l ≤ (bestFold f lags init).1) ∧
      (bestFold f lags init = init ∨
        ((bestFold f lags init).2 ∈ lags ∧
          corrAt f (bestFold f lags init).2 = (bestFold f lags init).1)) := by
  induction lags with
  | nil =>
    intro init
    exact ⟨le_rfl, by simp, Or.inl rfl⟩
  | cons lag rest ih =>
    intro init
    have hstep : bestFold f (lag :: rest) init =
        bestFold f rest (if init.1 < corrAt f lag then (corrAt f lag, lag) else init) := by
      by_cases hlt : init.1 < corrAt f lag <;>
        simp [bestFold, hlt]
    rw [hstep]
    by_cases hlt : init.1 < corrAt f lag
    · rw [if_pos hlt]
      obtain ⟨h1, h2, h3⟩ := ih (corrAt f lag, lag)
      refine ⟨le_trans (le_of_lt hlt) h1, ?_, ?_⟩
      · intro l hl
        rcases List.mem_cons.mp hl with rfl | hl'
        · exact h1
        · exact h2 l hl'
      · rcases h3 with heq | ⟨hmem, hcorr⟩
        · rw [heq]
          exact Or.inr ⟨List.mem_cons_self _ _, rfl⟩
        · exact Or.inr ⟨List.mem_cons_of_mem _ hmem, hcorr⟩
    · rw [if_neg hlt]
      obtain ⟨h1, h2, h3⟩ := ih init
      refine ⟨h1, ?_, ?_⟩
      · intro l hl
        rcases List.mem_cons.mp hl with rfl | hl'
        · exact le_trans (not_lt.mp hlt) h1
        · exact h2 l hl'
      · rcases h3 with heq | hr
        · exact Or.inl heq
        · exact Or.inr ⟨List.mem_cons_of_mem _ hr.1, hr.2⟩

theorem maxByKeyStep_isSome (key : ℕ → ℤ) (acc : Option ℕ) (x : ℕ) :
    (maxByKeyStep key acc x).isSome := by
  cases acc with
  | none => rfl
  | some b =>
    unfold maxByKeyStep
    by_cases h : key b ≤ key x <;> simp [h]

theorem maxByKeyFold_isSome (key : ℕ → ℤ) :
    ∀ (l : List ℕ) (acc : Option ℕ), acc.isSome →
      (l.foldl (maxByKeyStep key) acc).isSome
  | [], _, h => h
  | x :: xs, acc, _ => maxByKeyFold_isSome key xs _ (maxByKeyStep_isSome key acc x)

theorem maxByKeyFold_cases (key : ℕ → ℤ) :
    ∀ (l : List ℕ) (acc : Option ℕ),
      l.foldl (maxByKeyStep key) acc = acc ∨
      ∃ x ∈ l, l.foldl (maxByKeyStep key) acc = some x := by
  intro l
  induction l with
  | nil => intro acc; exact Or.inl rfl
  | cons x xs ih =>
    intro acc
    have hfold : (x :: xs).foldl (maxByKeyStep key) acc =
        xs.foldl (maxByKeyStep key) (maxByKeyStep key acc x) := rfl
    rcases ih (maxByKeyStep key acc x) with heq | ⟨y, hy, hr⟩
    · rw [hfold, heq]
      cases acc with
      | none => exact Or.inr ⟨x, List.mem_cons_self _ _, rfl⟩
      | some b =>
        unfold maxByKeyStep
        by_cases hk : key b ≤ key x
        · exact Or.inr ⟨x, List.mem_cons_self _ _, by simp [hk]⟩
        · exact Or.inl (by simp [hk])
    · rw [hfold, hr]
      exact Or.inr ⟨y, List.mem_cons_of_mem _ hy, rfl⟩

theorem maxByKeyLast_mem (l : List ℕ) (key : ℕ → ℤ) (hne : l ≠ []) :
    ∃ x ∈ l, maxByKeyLast l key = some x := by
  unfold maxByKeyLast
  rcases maxByKeyFold_cases key l none with heq | h
  · exfalso
    cases l with
    | nil => exact hne rfl
    | cons x xs =>
      have hs := maxByKeyFold_isSome key xs (maxByKeyStep key none x)
        (maxByKeyStep_isSome key none x)
      have heq' : xs.foldl (maxByKeyStep key) (maxByKeyStep key none x) = none := heq
      rw [heq'] at hs
      simp at hs
  · exact h

/-- Structural characterization of a successful `detect_bpm`: the reported
BPM is `60/(lag/rate)` for an argmax lag in `[15, 55)`, the confidence is
fixed at 0.8, and the first beat is `p/rate` for a phase `p < lag`. -/
theorem detect_bpm_char (env low : List ℚ) (rate : ℚ) (b : ℚ)
    (h : (detect_bpm env low rate).1 = some b) :
    ∃ bl : ℕ, BPM_MIN_LAG ≤ bl ∧ bl < BPM_MAX_LAG ∧
      b = 60 / ((bl : ℚ) / rate) ∧
      (detect_bpm env low rate).2.1 = some 0.8 ∧
      (∀ l, BPM_MIN_LAG ≤ l → l < BPM_MAX_LAG →
        corrAt (flux env) l ≤ corrAt (flux env) bl) ∧
      (∃ p : ℕ, p < bl ∧ (detect_bpm env low rate).2.2 = some ((p : ℚ) / rate)) := by
  set best := bestFold (flux env)
    (List.range' BPM_MIN_LAG (BPM_MAX_LAG - BPM_MIN_LAG)) (0, 0) with hbestdef
  by_cases h1 : env.length < 100
  · rw [detect_bpm, if_pos h1] at h
    simp at h
  by_cases h2 : (flux env).length < 110
  · rw [detect_bpm, if_neg h1] at h
    simp only [if_pos h2] at h
    simp at h
  by_cases h3 : best.1 ≤ 0.001
  · rw [detect_bpm, if_neg h1] at h
    simp only [if_neg h2, ← hbestdef, if_pos h3] at h
    simp at h
  have hres : detect_bpm env low rate =
      (some (60 / ((best.2 : ℚ) / rate)), some 0.8,
       (maxByKeyLast (List.range best.2)
         (fun p => rustTrunc (combEnergy (flux env) best.2 p * 1000))).map
         (fun (p : ℕ) => (p : ℚ) / rate)) := by
    rw [detect_bpm, if_neg h1]
    simp only [if_neg h2, ← hbestdef, if_neg h3]
  obtain ⟨hinit, hmax, hcase⟩ := bestFold_spec (flux env)
    (List.range' BPM_MIN_LAG (BPM_MAX_LAG - BPM_MIN_LAG)) (0, 0)
  rw [← hbestdef] at hinit hmax hcase
  rcases hcase with heq0 | ⟨hmem, hcorr⟩
  · exfalso
    rw [heq0] at h3
    exact h3 (by norm_num)
  have hrange := List.mem_range'_1.mp hmem
  have hr2 : BPM_MIN_LAG + (BPM_MAX_LAG - BPM_MIN_LAG) = BPM_MAX_LAG := by
    simp [BPM_MIN_LAG, BPM_MAX_LAG]
  have hbval : b = 60 / ((best.2 : ℚ) / rate) := by
    rw [hres] at h
    exact (Option.some.injEq _ _ ▸ h).symm
  have hne : List.range best.2 ≠ [] := by
    have : BPM_MIN_LAG ≤ best.2 := hrange.1
    simp only [ne_eq, List.range_eq_nil]
    simp [BPM_MIN_LAG] at this
    omega
  obtain ⟨p, hp_mem, hp_eq⟩ := maxByKeyLast_mem (List.range best.2)
    (fun q => rustTrunc (combEnergy (flux env) best.2 q * 1000)) hne
  refine ⟨best.2, hrange.1, hr2 ▸ hrange.2, hbval, ?_, ?_, p, List.mem_range.mp hp_mem, ?_⟩
  · rw [hres]
  · intro l hl1 hl2
    have hlm : l ∈ List.range' BPM_MIN_LAG (BPM_MAX_LAG - BPM_MIN_LAG) :=
      List.mem_range'_1.mpr ⟨hl1, hr2 ▸ hl2⟩
    calc corrAt (flux env) l ≤ best.1 := hmax l hlm
      _ = corrAt (flux env) best.2 := hcorr.symm
  · rw [hres]
    simp [hp_eq]

set_option maxRecDepth 40000 in
/-- C4 (counterexample): on a 200 BPM click envelope (impulse every 15
samples, 111 samples long) the argmax lag is 15 and the reported BPM is
exactly `60/(15/50) = 200` — refuting "the reported BPM lies strictly
inside the open interval (55, 200)". -/
theorem c4_counterexample : (detect_bpm env111 [] 50).1 = some 200 := by
  decide

/-- C4 (amended): whenever `detect_bpm` (at the 50 Hz envelope rate)
reports a BPM it equals `60/(lag/50)` for an argmax lag in `[15, 55)`, the
reported confidence is 0.8, and the BPM lies in the half-open interval
`(55, 200]` — the right endpoint 200 is attained when the argmax lag
is 15. -/
theorem c4_theorem (env low : List ℚ) (b : ℚ)
    (h : (detect_bpm env low 50).1 = some b) :
    (detect_bpm env low 50).2.1 = some 0.8 ∧
    55 < b ∧ b ≤ 200 ∧
    ∃ lag : ℕ, 15 ≤ lag ∧ lag < 55 ∧ b = 60 / ((lag : ℚ) / 50) ∧
      ∀ l, 15 ≤ l → l < 55 → corrAt (flux env) l ≤ corrAt (flux env) lag := by
  obtain ⟨bl, hbl1, hbl2, hbeq, hconf, hmax, _⟩ := detect_bpm_char env low 50 b h
  have hbl1' : 15 ≤ bl := hbl1
  have hbl2' : bl < 55 := hbl2
  have hblq : (15 : ℚ) ≤ (bl : ℚ) := by exact_mod_cast hbl1'
  have hblq' : (bl : ℚ) ≤ 54 := by
    have : bl ≤ 54 := by omega
    exact_mod_cast this
  have hblpos : (0 : ℚ) < (bl : ℚ) := by linarith
  have hb3000 : b = 3000 / (bl : ℚ) := by
    rw [hbeq, div_div_eq_mul_div]
    norm_num
  refine ⟨hconf, ?_, ?_, bl, hbl1', hbl2', hbeq, fun l hl1 hl2 => hmax l hl1 hl2⟩
  · rw [hb3000, lt_div_iff₀ hblpos]
    linarith
  · rw [hb3000, div_le_iff₀ hblpos]
    linarith

set_option maxRecDepth 40000 in
/-- C4 (witness): the click-track envelope discharges the hypothesis; the
reported confidence is 0.8. -/
theorem c4_witness : (detect_bpm env111 [] 50).2.1 = some 0.8 :=
  (c4_theorem env111 [] 200 (by decide)).1

/-! ### Lemmas about the mix window and energy profile -/

theorem detect_bpm_pos (env low : List ℚ) (rate : ℚ) (hr : 0 < rate) (b : ℚ)
    (h : (detect_bpm env low rate).1 = some b) : 0 < b := by
  obtain ⟨bl, hbl1, _, hbeq, _⟩ := detect_bpm_char env low rate b h
  have hblpos : (0 : ℚ) < (bl : ℚ) := by
    have h15 : (15 : ℕ) ≤ bl := hbl1
    have : (15 : ℚ) ≤ (bl : ℚ) := by exact_mod_cast h15
    linarith
  rw [hbeq]
  positivity

theorem detect_bpm_fb_nonneg (env low : List ℚ) (rate : ℚ) (hr : 0 < rate) (x : ℚ)
    (h : (detect_bpm env low rate).2.2 = some x) : 0 ≤ x := by
  by_cases h1 : env.length < 100
  · rw [detect_bpm, if_pos h1] at h
    simp at h
  by_cases h2 : (flux env).length < 110
  · rw [detect_bpm, if_neg h1] at h
    simp only [if_pos h2] at h
    simp at h
  by_cases h3 : (bestFold (flux env)
      (List.range' BPM_MIN_LAG (BPM_MAX_LAG - BPM_MIN_LAG)) (0, 0)).1 ≤ 0.001
  · rw [detect_bpm, if_neg h1] at h
    simp only [if_neg h2, if_pos h3] at h
    simp at h
  · rw [detect_bpm, if_neg h1] at h
    simp only [if_neg h2, if_neg h3] at h
    simp only [Option.map_eq_some'] at h
    obtain ⟨p, _, hp⟩ := h
    rw [← hp]
    exact div_nonneg (Nat.cast_nonneg p) (le_of_lt hr)

theorem rfindIdx_map_getD_nonneg (l : List ℚ) (p : ℚ → Bool) (rate d : ℚ)
    (hr : 0 < rate) (hd : 0 ≤ d) :
    0 ≤ (((rfindIdx l p).map (fun (i : ℕ) => (i : ℚ) / rate)).getD d) := by
  cases hfind : rfindIdx l p with
  | none => simpa using hd
  | some i =>
    simp only [Option.map_some', Option.getD_some]
    exact div_nonneg (Nat.cast_nonneg i) (le_of_lt hr)

theorem detect_silence_snd_nonneg (o : DspOracle) (head tail : List ℚ)
    (d rate db : ℚ) (hd : 0 ≤ d) (hr : 0 < rate) :
    0 ≤ (detect_silence o head tail d rate db).2 := by
  unfold detect_silence
  by_cases hte : tail.isEmpty
  · simp only [if_pos hte]
    exact rfindIdx_map_getD_nonneg head _ rate d hr hd
  · simp only [if_neg hte]
    cases hfind : rfindIdx tail (fun x => decide (x > o.pow10 (db / 20))) with
    | none => simpa using hd
    | some i =>
      simp only [Option.map_some', Option.getD_some]
      have h1 : 0 ≤ rustMax (d - (tail.length : ℚ) / rate) 0 := by
        rw [rustMax_eq]
        exact le_max_right _ _
      have h2 : 0 ≤ ((i : ℚ) + 1) / rate :=
        div_nonneg (by positivity) (le_of_lt hr)
      linarith

theorem detect_vocals_out_nonneg (he hr te tr : List ℚ) (d rate fi fo : ℚ)
    (hrate : 0 < rate) (v : ℚ)
    (h : (detect_vocals he hr te tr d rate fi fo).2.1 = some v) : 0 ≤ v := by
  unfold detect_vocals at h
  by_cases hte : te.isEmpty
  · simp only [if_pos hte] at h
    simp only [Option.map_eq_some'] at h
    obtain ⟨i, _, hi⟩ := h
    rw [← hi]
    have : 0 ≤ (i : ℚ) / rate := div_nonneg (Nat.cast_nonneg i) (le_of_lt hrate)
    linarith
  · simp only [if_neg hte] at h
    simp only [Option.map_eq_some'] at h
    obtain ⟨i, _, hi⟩ := h
    rw [← hi]
    have h1 : 0 ≤ rustMax (d - (te.length : ℚ) / rate) 0 := by
      rw [rustMax_eq]
      exact le_max_right _ _
    have h2 : 0 ≤ (i : ℚ) / rate := div_nonneg (Nat.cast_nonneg i) (le_of_lt hrate)
    linarith

theorem snap_time_nonneg (t bpm fb grid : ℚ) (hb : 0 < bpm) (hg : 0 < grid)
    (hfb : 0 ≤ fb) : 0 ≤ snap_time t bpm fb grid := by
  have hbn : ¬ bpm ≤ 0 := not_le.mpr hb
  have hgs : 0 < 60 / bpm * grid := mul_pos (div_pos (by norm_num) hb) hg
  have hgsn : ¬ 60 / bpm * grid ≤ 0 := not_le.mpr hgs
  simp only [snap_time, if_neg hbn, if_neg hgsn]
  split
  · exact hfb
  · exact not_lt.mp (by assumption)

theorem rustMin_nonneg (a b : ℚ) (ha : 0 ≤ a) (hb : 0 ≤ b) : 0 ≤ rustMin a b := by
  rw [rustMin_eq]
  exact le_min ha hb

theorem smart_cut_out_spec (bpm fb conf vo : Option ℚ) (fi fo d : ℚ)
    (hd : 0 ≤ d) (hfo : 0 ≤ fo)
    (hvo : ∀ x, vo = some x → 0 ≤ x)
    (hb : ∀ x, bpm = some x → 0 < x)
    (hfb : ∀ x, fb = some x → 0 ≤ x) :
    ∃ v, calculate_smart_cut_out bpm fb conf vo fi fo d = some v ∧ 0 ≤ v := by
  have hse : 0 ≤ (match vo with
      | some x => rustMin (x + 40) fo
      | none => fo) := by
    cases vo with
    | none => exact hfo
    | some x =>
      have hx := hvo x rfl
      exact rustMin_nonneg _ _ (by linarith) hfo
  unfold calculate_smart_cut_out
  cases bpm with
  | none => exact ⟨_, rfl, hse⟩
  | some b =>
    cases fb with
    | none => exact ⟨_, rfl, hse⟩
    | some f =>
      have hbpos := hb b rfl
      have hfpos := hfb f rfl
      by_cases hconf : conf.getD 0 > 0.4
      · simp only [if_pos hconf]
        cases vo with
        | none =>
          refine ⟨_, rfl, ?_⟩
          exact rustMin_nonneg _ _
            (snap_time_nonneg _ _ _ _ hbpos (by norm_num) hfpos) hd
        | some x =>
          by_cases hsn : snap_time (rustMin (x + 40) fo) b f 4 < x + 2
          · simp only [if_pos hsn]
            refine ⟨_, rfl, ?_⟩
            exact rustMin_nonneg _ _
              (snap_time_nonneg _ _ _ _ hbpos (by norm_num) hfpos) hd
          · simp only [if_neg hsn]
            refine ⟨_, rfl, ?_⟩
            exact rustMin_nonneg _ _
              (snap_time_nonneg _ _ _ _ hbpos (by norm_num) hfpos) hd
      · simp only [if_neg hconf]
        exact ⟨_, rfl, hse⟩

theorem mix_center_bounds (sco : Option ℚ) (d : ℚ) (hd : 0 ≤ d)
    (hsco : ∀ v, sco = some v → 0 ≤ v) :
    0 ≤ mix_center_of sco d ∧ mix_center_of sco d ≤ d := by
  unfold mix_center_of
  rw [rustMin_eq]
  have hgd : 0 ≤ sco.getD (rustMax (d - 10) 0) := by
    cases sco with
    | none =>
      simp only [Option.getD_none]
      rw [rustMax_eq]
      exact le_max_right _ _
    | some v => simpa using hsco v rfl
  exact ⟨le_min hgd hd, min_le_right _ _⟩

theorem mix_duration_bounds (bpm : Option ℚ) :
    15 ≤ mix_duration_of bpm ∧ mix_duration_of bpm ≤ 30 := by
  cases bpm with
  | none =>
    unfold mix_duration_of
    norm_num
  | some b =>
    unfold mix_duration_of
    exact rustClamp_mem _ 15 30 (by norm_num)

theorem mix_window_bounds (c d md : ℚ) (hc0 : 0 ≤ c) (hcd : c ≤ d)
    (hmd15 : 15 ≤ md) (hmd30 : md ≤ 30) :
    0 ≤ mix_start_of c md ∧ mix_start_of c md ≤ c ∧
    c ≤ mix_end_of c md d ∧ mix_end_of c md d ≤ d ∧
    mix_end_of c md d - mix_start_of c md ≤ 30 := by
  unfold mix_start_of mix_end_of
  rw [rustMax_eq, rustMin_eq]
  refine ⟨le_max_right _ _, max_le (by linarith) hc0, le_min (by linarith) hcd,
    min_le_right _ _, ?_⟩
  have h1 := min_le_left (c + md / 2) d
  have h2 := le_max_left (c - md / 2) (0 : ℚ)
  linarith

theorem mix_fields_bounds (sco bpm : Option ℚ) (d : ℚ) (hd : 0 ≤ d)
    (hsco : ∀ v, sco = some v → 0 ≤ v) :
    0 ≤ mix_start_of (mix_center_of sco d) (mix_duration_of bpm) ∧
    mix_start_of (mix_center_of sco d) (mix_duration_of bpm) ≤ mix_center_of sco d ∧
    mix_center_of sco d ≤ mix_end_of (mix_center_of sco d) (mix_duration_of bpm) d ∧
    mix_end_of (mix_center_of sco d) (mix_duration_of bpm) d ≤ d ∧
    mix_end_of (mix_center_of sco d) (mix_duration_of bpm) d -
      mix_start_of (mix_center_of sco d) (mix_duration_of bpm) ≤ 30 := by
  obtain ⟨hc0, hcd⟩ := mix_center_bounds sco d hd hsco
  obtain ⟨h15, h30⟩ := mix_duration_bounds bpm
  exact mix_window_bounds _ d _ hc0 hcd h15 h30

theorem foldl_inv {α β : Type} (P : β → Prop) (f : β → α → β)
    (hf : ∀ b a, P b → P (f b a)) :
    ∀ (l : List α) (init : β), P init → P (l.foldl f init)
  | [], _, h => h
  | a :: l, init, h => foldl_inv P f hf l (f init a) (hf init a h)

theorem fill_energy_profile_length (prof env : List ℚ) (s er pr : ℚ) :
    (fill_energy_profile prof env s er pr).length = prof.length := by
  unfold fill_energy_profile
  refine foldl_inv (fun l => l.length = prof.length) _ ?_ env.enum prof rfl
  intro b a hb
  dsimp only
  split
  · rw [List.length_set]
    exact hb
  · exact hb

theorem fill_energy_profile_nonneg (prof env : List ℚ) (s er pr : ℚ)
    (h : ∀ x ∈ prof, 0 ≤ x) :
    ∀ x ∈ fill_energy_profile prof env s er pr, 0 ≤ x := by
  unfold fill_energy_profile
  refine foldl_inv (fun l => ∀ x ∈ l, 0 ≤ x) _ ?_ env.enum prof h
  intro b a hb
  dsimp only
  split
  · intro x hx
    rcases List.mem_or_eq_of_mem_set hx with hx' | rfl
    · exact hb x hx'
    · rw [rustMax_eq]
      exact le_trans (getD_nonneg b _ hb) (le_max_left _ _)
  · exact hb

theorem rustCeilToNat_eq (q : ℚ) : rustCeilToNat q = (⌈q⌉).toNat := by
  unfold rustCeilToNat
  rw [ratFloor_eq, Int.floor_neg, neg_neg]

theorem energy_profile_len_pos_eq (d : ℚ) (hd : 0 < d) :
    energy_profile_len d = rustCeilToNat (d * 10) := by
  unfold energy_profile_len
  have h1 : 1 ≤ rustCeilToNat (d * 10) := by
    rw [rustCeilToNat_eq]
    have hpos : (0 : ℤ) < ⌈d * 10⌉ := Int.ceil_pos.mpr (by positivity)
    omega
  exact Nat.max_eq_left h1

theorem energy_profile_combined (d ts : ℚ) (he te : List ℚ) :
    ((if te.isEmpty then
        fill_energy_profile (List.replicate (energy_profile_len d) 0) he 0 ENV_RATE 10
      else
        fill_energy_profile
          (fill_energy_profile (List.replicate (energy_profile_len d) 0) he 0 ENV_RATE 10)
          te ts ENV_RATE 10).length = energy_profile_len d) ∧
    ∀ x ∈ (if te.isEmpty then
        fill_energy_profile (List.replicate (energy_profile_len d) 0) he 0 ENV_RATE 10
      else
        fill_energy_profile
          (fill_energy_profile (List.replicate (energy_profile_len d) 0) he 0 ENV_RATE 10)
          te ts ENV_RATE 10), 0 ≤ x := by
  have hbase : ∀ x ∈ List.replicate (energy_profile_len d) (0 : ℚ), 0 ≤ x := fun x hx =>
    le_of_eq (List.eq_of_mem_replicate hx).symm
  by_cases hte : te.isEmpty
  · simp only [if_pos hte]
    exact ⟨by rw [fill_energy_profile_length, List.length_replicate],
      fill_energy_profile_nonneg _ _ _ _ _ hbase⟩
  · simp only [if_neg hte]
    exact ⟨by rw [fill_energy_profile_length, fill_energy_profile_length, List.length_replicate],
      fill_energy_profile_nonneg _ _ _ _ _ (fill_energy_profile_nonneg _ _ _ _ _ hbase)⟩

/-! ## C6 and C7 -/

set_option maxRecDepth 40000 in
/-- C6 (counterexample): the analyzer state of a 3-second constantly-loud
head-only run yields `mix_end_pos − mix_start_pos = 3 < 15`: the `[0,
duration]` clamps shrink the window below 15 s on short tracks — refuting
"`mix_end_pos − mix_start_pos` lies in `[15, 30]` seconds". -/
theorem c6_counterexample :
    (finalize_record oracle1 stShortTrack).mix_end_pos -
      (finalize_record oracle1 stShortTrack).mix_start_pos < 15 := by
  decide

/-- C6 (amended): for every emitted `AudioAnalysis` (any oracle, any
analyzer state with non-negative duration),
`mix_start_pos ≤ mix_center_pos ≤ mix_end_pos`, all three lie within
`[0, duration]`, and `mix_end_pos − mix_start_pos ≤ 30`; the lower bound
15 on the window width holds only when neither `[0, duration]` clamp
truncates it. -/
theorem c6_theorem (o : DspOracle) (st : AnalyzerState) (hd : 0 ≤ st.duration) :
    0 ≤ (finalize_record o st).mix_start_pos ∧
    (finalize_record o st).mix_start_pos ≤ (finalize_record o st).mix_center_pos ∧
    (finalize_record o st).mix_center_pos ≤ (finalize_record o st).mix_end_pos ∧
    (finalize_record o st).mix_end_pos ≤ (finalize_record o st).duration ∧
    (finalize_record o st).mix_end_pos - (finalize_record o st).mix_start_pos ≤ 30 := by
  have hrate : (0 : ℚ) < ENV_RATE := by norm_num [ENV_RATE]
  simp only [finalize_record]
  apply mix_fields_bounds _ _ st.duration hd
  intro v hv
  obtain ⟨w, hw, hwpos⟩ := smart_cut_out_spec
    (detect_bpm st.head.envelope st.head.low_envelope ENV_RATE).1
    (detect_bpm st.head.envelope st.head.low_envelope ENV_RATE).2.2
    (detect_bpm st.head.envelope st.head.low_envelope ENV_RATE).2.1
    (detect_vocals st.head.envelope st.head.vocal_ratio st.tail.envelope st.tail.vocal_ratio
      st.duration ENV_RATE
      (detect_silence o st.head.envelope st.tail.envelope st.duration ENV_RATE SILENCE_THRESH_DB).1
      (detect_silence o st.head.envelope st.tail.envelope st.duration ENV_RATE SILENCE_THRESH_DB).2).2.1
    (detect_silence o st.head.envelope st.tail.envelope st.duration ENV_RATE SILENCE_THRESH_DB).1
    (detect_silence o st.head.envelope st.tail.envelope st.duration ENV_RATE SILENCE_THRESH_DB).2
    st.duration hd
    (detect_silence_snd_nonneg o st.head.envelope st.tail.envelope st.duration ENV_RATE
      SILENCE_THRESH_DB hd hrate)
    (fun x hx => detect_vocals_out_nonneg st.head.envelope st.head.vocal_ratio st.tail.envelope
      st.tail.vocal_ratio st.duration ENV_RATE
      (detect_silence o st.head.envelope st.tail.envelope st.duration ENV_RATE SILENCE_THRESH_DB).1
      (detect_silence o st.head.envelope st.tail.envelope st.duration ENV_RATE SILENCE_THRESH_DB).2
      hrate x hx)
    (fun x hx => detect_bpm_pos st.head.envelope st.head.low_envelope ENV_RATE hrate x hx)
    (fun x hx => detect_bpm_fb_nonneg st.head.envelope st.head.low_envelope ENV_RATE hrate x hx)
  rw [hw] at hv
  rw [← Option.some.inj hv]
  exact hwpos

/-- C6 (witness): a 1-second analyzer state satisfies the hypothesis and
the mix-window bounds. -/
theorem c6_witness :
    0 ≤ stTinyA.duration ∧
    (0 ≤ (finalize_record oracle0 stTinyA).mix_start_pos ∧
    (finalize_record oracle0 stTinyA).mix_start_pos ≤
      (finalize_record oracle0 stTinyA).mix_center_pos ∧
    (finalize_record oracle0 stTinyA).mix_center_pos ≤
      (finalize_record oracle0 stTinyA).mix_end_pos ∧
    (finalize_record oracle0 stTinyA).mix_end_pos ≤
      (finalize_record oracle0 stTinyA).duration ∧
    (finalize_record oracle0 stTinyA).mix_end_pos -
      (finalize_record oracle0 stTinyA).mix_start_pos ≤ 30) :=
  ⟨by decide, c6_theorem oracle0 stTinyA (by decide)⟩

/-- C7 (counterexample): a probe-able input with no decodable packets
leaves `duration = 0`; the emitted analysis has `energy_profile.length = 1`
while `ceil(duration × 10) = 0` — refuting "`energy_profile` has length
`ceil(duration × 10)`" (the code takes `.max(1)`). -/
theorem c7_counterexample :
    (finalize_record oracle0 stEmptyTrack).energy_profile.length = 1 ∧
    rustCeilToNat (stEmptyTrack.duration * 10) = 0 := by
  constructor
  · decide
  · decide

/-- C7 (amended): for every emitted `AudioAnalysis`, `energy_profile` has
length `max(1, ceil(duration × 10))` — equal to `ceil(duration × 10)`
whenever `duration > 0` — and every element is non-negative. -/
theorem c7_theorem (o : DspOracle) (st : AnalyzerState) :
    (finalize_record o st).energy_profile.length = energy_profile_len st.duration ∧
    (0 < st.duration →
      (finalize_record o st).energy_profile.length = rustCeilToNat (st.duration * 10)) ∧
    ∀ x ∈ (finalize_record o st).energy_profile, 0 ≤ x := by
  simp only [finalize_record]
  obtain ⟨hlen, hnn⟩ := energy_profile_combined st.duration
    (rustMax (st.duration - (st.tail.envelope.length : ℚ) / ENV_RATE) 0)
    st.head.envelope st.tail.envelope
  exact ⟨hlen, fun hdpos => by rw [hlen]; exact energy_profile_len_pos_eq st.duration hdpos, hnn⟩

/-- C7 (witness): a 2-second analyzer state has a positive duration and an
energy profile of length `ceil(2 × 10) = 20`. -/
theorem c7_witness :
    0 < stTinyB.duration ∧
    (finalize_record oracle0 stTinyB).energy_profile.length =
      rustCeilToNat (stTinyB.duration * 10) :=
  ⟨by decide, (c7_theorem oracle0 stTinyB).2.1 (by decide)⟩

end SPlayer
